import Mathlib

/-!
# Invisisnake turn engine — formal model

Shallow embedding of the turn-resolution engine of `src/components/Invisisnake.jsx`
(the `doStep` event handler and its helpers), together with proofs of the
specification's testable properties.

Modelling notes, matching the source:

* Coordinates are `Int` pairs (JS numbers used as integers).  Board dimensions
  (`cols`, `rows`) are `Nat`.
* The component's reactive state (`useState`) and its shadow refs (`useRef`
  synced by `useEffect`) are collapsed into a single `GameState` record.  At
  the start of an event-handler invocation both views agree; *within* one
  invocation every `xxxRef.current` read still sees the pre-step value (refs
  are only re-synced after the re-render), and the queued `setX` writes
  resolve last-write-wins.  The embedding therefore reads all intermediate
  values from the pre-step state `s` and computes each field's final value as
  the last queued write, exactly as React batches the handler.
* Randomness (`Math.random()` rolls and the rejection-sampling draws inside
  `placeFreeCell`) is abstracted into an explicit `Rand` record: a list of
  candidate cells for each `placeFreeCell` call and a `Bool` for each
  per-turn chance roll (`true` means the roll passed, i.e. the sampled value
  was below the chance constant).
* Audio cues are the observable per-turn events; they are modelled as the
  `Effect` list returned next to the new state (`playMove ↦ moved`,
  `playFruit ↦ ateFruit`, `playPickupSweep ↦ pickedUp`,
  `playLifeLost`/`playGameOver ↦ died`, `playWin ↦ won`).
* `Math.ceil(Math.hypot dx dy)` is modelled as the exact integer ceiling of
  the Euclidean distance; for the coordinate ranges of this game (boards up
  to 12×12) the double-precision value rounds to a number with the same
  ceiling, so the model is exact.
-/

namespace Invisisnake

/-- A board cell / integer coordinate pair, as the `{x, y}` objects of the source. -/
structure Pos where
  x : Int
  y : Int
deriving DecidableEq

/-- A power-up `{x, y, ttl}` as stored in the `powerUp` state. -/
structure PowerUp where
  x : Int
  y : Int
  ttl : Int
deriving DecidableEq

/-- The cell of a power-up. -/
def puCell (pu : PowerUp) : Pos := ⟨pu.x, pu.y⟩

/-- Observable per-turn events (the audio/FX cues of the source). -/
inductive Effect where
  | moved : Effect
  | ateFruit : Effect
  | pickedUp : Effect
  | died : Pos → Effect
  | won : Effect
deriving DecidableEq

/-- `POWERUP_MIN_LEVEL` constant of the source. -/
def POWERUP_MIN_LEVEL : Nat := 2

/-- `HAZARD_MIN_LEVEL` constant of the source. -/
def HAZARD_MIN_LEVEL : Nat := 3

/-- `DIRS.UP` of the source. -/
def DIRS.UP : Pos := ⟨0, -1⟩

/-- `DIRS.DOWN` of the source. -/
def DIRS.DOWN : Pos := ⟨0, 1⟩

/-- `DIRS.LEFT` of the source. -/
def DIRS.LEFT : Pos := ⟨-1, 0⟩

/-- `DIRS.RIGHT` of the source. -/
def DIRS.RIGHT : Pos := ⟨1, 0⟩

/-- `isOpposite` of the source: `a.x + b.x === 0 && a.y + b.y === 0`. -/
def isOpposite (a b : Pos) : Bool := a.x + b.x == 0 && a.y + b.y == 0

/-- `posEq` of the source: structural equality on the two coordinates. -/
def posEq (a b : Pos) : Bool := a.x == b.x && a.y == b.y

/-- `sizeForLevel` of the source: `Math.max(3, 2 + lvl)`. -/
def sizeForLevel (lvl : Nat) : Nat := max 3 (2 + lvl)

/-- `wrapCoord` of the source: `v < 0 ? max - 1 : v >= max ? 0 : v`. -/
def wrapCoord (v m : Int) : Int := if v < 0 then m - 1 else if v ≥ m then 0 else v

/-- All board cells in the row-major order of the fallback scan of
`placeFreeCell` (outer loop over `y`, inner loop over `x`). -/
def allCells (cols rows : Nat) : List Pos :=
  ((List.range rows).map
    (fun y => (List.range cols).map (fun x => (⟨(x : Int), (y : Int)⟩ : Pos)))).flatten

/-- `placeFreeCell` of the source.  `draws` is the (finite) sequence of cells
produced by the rejection-sampling loop (`Math.floor(Math.random() * dim)` per
axis, hence always in-board in the source); `excluded` is the excluded set,
modelled as a list with membership semantics (the JS `Set` of `"x,y"` keys).
Returns the first draw that is not excluded, else the first free cell in
row-major order, else `none`; the up-front `size >= total` check is the
source's early exit for a fully-occupied board. -/
def placeFreeCell (draws : List Pos) (excluded : List Pos) (cols rows : Nat) :
    Option Pos :=
  if cols * rows ≤ excluded.dedup.length then none
  else
    match draws.find? (fun p => !decide (p ∈ excluded)) with
    | some p => some p
    | none => (allCells cols rows).find? (fun p => !decide (p ∈ excluded))

/-- Exact integer ceiling of the square root: the least `k` with `n ≤ k * k`.
Models `Math.ceil(Math.sqrt n)` (exact for this game's ranges). -/
def ceilSqrt (n : Nat) : Nat :=
  ((List.range (n + 1)).find? (fun k => decide (n ≤ k * k))).getD n

/-- `Math.ceil(Math.hypot(b.x - a.x, b.y - a.y))`: integer ceiling of the
Euclidean distance between two cells. -/
def ceilDist (a b : Pos) : Int :=
  (ceilSqrt (((b.x - a.x) * (b.x - a.x) + (b.y - a.y) * (b.y - a.y)).toNat) : Int)

/-- The game state visible to the turn engine: the `useState` slots of the
component that `doStep` reads or writes (the shadow refs hold the same values
at the start of a step).  Purely cosmetic slots (overlay flags, particles,
level-picker text) are omitted. -/
structure GameState where
  level : Nat
  cols : Nat
  rows : Nat
  lives : Int
  snake : List Pos
  dir : Pos
  fruit : Option Pos
  score : Nat
  gameOver : Bool
  won : Bool
  crashPos : Option Pos
  powerUp : Option PowerUp
  revealTurns : Nat
  hazards : List Pos
deriving DecidableEq

/-- The random draws consumed by one call of `doStep`: candidate cells for the
fruit / power-up / hazard `placeFreeCell` calls and the two per-turn chance
rolls (`true` = the sampled value passed the chance threshold). -/
structure Rand where
  fruitDraws : List Pos
  puRoll : Bool
  puDraws : List Pos
  hazRoll : Bool
  hazDraws : List Pos

/-- The cell list contributed by an optional fruit. -/
def optFruitCells : Option Pos → List Pos
  | some f => [f]
  | none => []

/-- The cell list contributed by an optional power-up. -/
def optPuCells : Option PowerUp → List Pos
  | some pu => [puCell pu]
  | none => []

/-- `loseLifeAt` of the source (game-logic part): record the crash cell, set
`gameOver`, decrement lives with a floor at 0, and emit the death event. -/
def loseLifeAt (s : GameState) (cellPos : Pos) : GameState × List Effect :=
  ({ s with crashPos := some cellPos, gameOver := true,
            lives := max 0 (s.lives - 1) }, [Effect.died cellPos])

/-- The new head: `wrap(head + nextDir)` componentwise (lines 374–377). -/
def newHeadOf (s : GameState) (nextDir : Pos) : Pos :=
  let head := s.snake.headD ⟨0, 0⟩
  ⟨wrapCoord (head.x + nextDir.x) (s.cols : Int),
   wrapCoord (head.y + nextDir.y) (s.rows : Int)⟩

/-- `ateFruit = fruit && posEq(newHead, fruit)` (line 388). -/
def ateFruitOf (s : GameState) (nextDir : Pos) : Bool :=
  match s.fruit with
  | some f => posEq (newHeadOf s nextDir) f
  | none => false

/-- The snake with the new head prepended (line 385), before any tail pop. -/
def grownOf (s : GameState) (nextDir : Pos) : List Pos :=
  newHeadOf s nextDir :: s.snake

/-- The snake after the move: the grown snake, with the tail popped when no
fruit was eaten (lines 385, 390–391). -/
def newSnakeOf (s : GameState) (nextDir : Pos) : List Pos :=
  if ateFruitOf s nextDir then grownOf s nextDir else (grownOf s nextDir).dropLast

/-- The excluded set `occF` for the fruit respawn (lines 395–397): the grown
snake, the power-up cell (stale ref = pre-step value) and the hazards. -/
def fruitExcludedOf (s : GameState) (nextDir : Pos) : List Pos :=
  grownOf s nextDir ++ optPuCells s.powerUp ++ s.hazards

/-- The fruit-resolution stage (lines 388–423).  Returns
`(nextFruitPos, fruit final value, exhaustion-win flag, events)`:

* no fruit eaten: tail already popped elsewhere, `playMove`, fruit unchanged;
* fruit eaten and a free cell found: `setFruit nf`, `playFruit`;
* fruit eaten and no free cell: `triggerWin()` (which emits `won` unless the
  stale `wonRef` is already set) and `nextFruitPos = null`, but **no** write
  to the fruit state, which therefore keeps its pre-step value. -/
def fruitStepOf (s : GameState) (nextDir : Pos) (r : Rand) :
    Option Pos × Option Pos × Bool × List Effect :=
  if ateFruitOf s nextDir then
    match placeFreeCell r.fruitDraws (fruitExcludedOf s nextDir) s.cols s.rows with
    | none =>
        (none, s.fruit, true,
         [Effect.ateFruit] ++ (if s.won then [] else [Effect.won]))
    | some nf => (some nf, some nf, false, [Effect.ateFruit])
  else (s.fruit, s.fruit, false, [Effect.moved])

/-- The `nextFruitPos` local used by the win re-check. -/
def nextFruitPosOf (s : GameState) (nextDir : Pos) (r : Rand) : Option Pos :=
  (fruitStepOf s nextDir r).1

/-- `posEq(newHead, powerUpRef.current)` (line 427): the pickup test, against
the pre-step power-up. -/
def pickedUpOf (s : GameState) (nextDir : Pos) : Bool :=
  match s.powerUp with
  | some pu => posEq (newHeadOf s nextDir) (puCell pu)
  | none => false

/-- The countdown block (lines 436–440).  It is gated on the *ref*, which
still holds the pre-step power-up even when the pickup branch just queued
`setPowerUp(null)`; its own `setPowerUp` therefore overwrites that write:
the final queued value is `none` when `ttl - 1 ≤ 0` and the decremented
power-up otherwise. -/
def powerUpDecayOf (s : GameState) : Option PowerUp :=
  match s.powerUp with
  | some pu => if pu.ttl - 1 ≤ 0 then none else some { pu with ttl := pu.ttl - 1 }
  | none => none

/-- Final value of `revealTurns` (lines 429, 441): the pickup branch queues
the new snake length, and the decrement branch — gated and fed by the stale
ref — overwrites it with `revealTurns - 1` whenever the pre-step counter was
positive. -/
def revealFinalOf (s : GameState) (nextDir : Pos) : Nat :=
  if s.revealTurns > 0 then s.revealTurns - 1
  else if pickedUpOf s nextDir then (newSnakeOf s nextDir).length
  else s.revealTurns

/-- The occupied set of the win re-check (lines 446–449): the post-move snake,
the hazards, `nextFruitPos` if present, and the *pre-step* power-up cell
(`powerUpRef.current` is still the stale ref here). -/
def winOccOf (s : GameState) (nextDir : Pos) (r : Rand) : List Pos :=
  newSnakeOf s nextDir ++ s.hazards ++ optFruitCells (nextFruitPosOf s nextDir r)
    ++ optPuCells s.powerUp

/-- `Math.ceil(total * 0.15)`, as the exact rational ceiling `⌈15·total/100⌉`
(the double-precision product rounds to a value with the same ceiling for
every board size this game can produce). -/
def winThreshold (total : Nat) : Nat := (total * 15 + 99) / 100

/-- `maybeSpawnPowerUp` of the source (lines 289–303), returning the spawned
power-up if any.  All refs read here (`powerUpRef`, `revealTurnsRef`,
`fruitRef`, `hazardsRef`) hold pre-step values. -/
def maybeSpawnPowerUp (s : GameState) (head : Pos) (currentSnake : List Pos)
    (block : Bool) (roll : Bool) (draws : List Pos) : Option PowerUp :=
  if block then none
  else if s.level < POWERUP_MIN_LEVEL then none
  else if s.powerUp.isSome then none
  else if s.revealTurns > 0 then none
  else if currentSnake.length < 10 then none
  else if !roll then none
  else
    match placeFreeCell draws
        (currentSnake ++ optFruitCells s.fruit ++ s.hazards) s.cols s.rows with
    | none => none
    | some pos => some ⟨pos.x, pos.y, max 1 (ceilDist head pos + 3)⟩

/-- `maybeSpawnHazard` of the source (lines 305–318), returning the spawned
hazard cell if any.  Again every ref read is the pre-step value. -/
def maybeSpawnHazard (s : GameState) (head : Pos) (currentSnake : List Pos)
    (roll : Bool) (draws : List Pos) : Option Pos :=
  if s.level < HAZARD_MIN_LEVEL then none
  else if s.hazards.length ≥ s.level - 2 then none
  else if !roll then none
  else
    placeFreeCell draws
      (currentSnake ++ optFruitCells s.fruit ++ optPuCells s.powerUp
        ++ s.hazards ++ [head]) s.cols s.rows

/-- The non-lethal tail of `doStep` (lines 384–460), with every queued write
resolved last-write-wins as React batches them. -/
def doStepMove (s : GameState) (nextDir : Pos) (r : Rand) : GameState × List Effect :=
  let fs := fruitStepOf s nextDir r
  let pickedUp := pickedUpOf s nextDir
  let total := s.cols * s.rows
  let empties : Int := (total : Int) - ((winOccOf s nextDir r).dedup.length : Int)
  let wonFired := decide (empties < (winThreshold total : Int)) && !s.won
  let spawnedPU := maybeSpawnPowerUp s (newHeadOf s nextDir) (newSnakeOf s nextDir)
      pickedUp r.puRoll r.puDraws
  let spawnedHaz := maybeSpawnHazard s (newHeadOf s nextDir) (newSnakeOf s nextDir)
      r.hazRoll r.hazDraws
  ({ s with
      snake := newSnakeOf s nextDir,
      dir := nextDir,
      fruit := fs.2.1,
      score := if ateFruitOf s nextDir then s.score + 1 else s.score,
      powerUp := (match spawnedPU with | some npu => some npu | none => powerUpDecayOf s),
      revealTurns := revealFinalOf s nextDir,
      hazards := s.hazards ++ (match spawnedHaz with | some p => [p] | none => []),
      won := s.won || fs.2.2.1 || wonFired },
   fs.2.2.2 ++ (if pickedUp then [Effect.pickedUp] else [])
     ++ (if wonFired then [Effect.won] else []))

/-- The post-gate body of `doStep` (lines 373–460): head computation, then the
hazard check, then the self-collision check, then the move. -/
def doStepCore (s : GameState) (nextDir : Pos) (r : Rand) : GameState × List Effect :=
  let newHead := newHeadOf s nextDir
  if s.hazards.any (fun h => posEq h newHead) then loseLifeAt s newHead
  else if s.snake.any (fun p => posEq p newHead) then loseLifeAt s newHead
  else doStepMove s nextDir r

/-- `doStep` of the source (lines 369–461): terminal guard, direction gate,
then the core step. -/
def doStep (s : GameState) (nextDir : Pos) (r : Rand) : GameState × List Effect :=
  if s.gameOver || s.won then (s, [])
  else if 1 < s.snake.length ∧ isOpposite nextDir s.dir = true then (s, [])
  else doStepCore s nextDir r

/-- The occupied set exactly as the specification's win re-check words it:
computed after the turn's mutations (steps 4–7 of the specified algorithm)
and before the stochastic spawns — the post-move snake, the hazards, the
fruit if present (the turn's `nextFruitPos`), and the power-up if it
survived the pickup and decay steps as the specification describes them
(picked up ⇒ removed; otherwise `ttl` decremented, removed at ≤ 0).  Used
to compare the specified win condition with the one the code computes
(which instead charges the stale pre-step power-up cell). -/
def specOccupied (s : GameState) (nextDir : Pos) (r : Rand) : List Pos :=
  newSnakeOf s nextDir ++ s.hazards ++ optFruitCells (nextFruitPosOf s nextDir r)
    ++ optPuCells (if pickedUpOf s nextDir then none else powerUpDecayOf s)

/-- A `Rand` with no draws and failing rolls (any fixed randomness works for
the concrete scenarios below, none of which depends on a successful roll). -/
def R0 : Rand :=
  { fruitDraws := [], puRoll := false, puDraws := [], hazRoll := false, hazDraws := [] }

/-- A 3×3 board one move away from saturation: the snake covers eight cells,
the fruit sits on the only free cell `(0,0)`, and the head `(1,0)` is about
to move LEFT onto it. -/
def S4 : GameState :=
  { level := 1, cols := 3, rows := 3, lives := 3,
    snake := [⟨1, 0⟩, ⟨2, 0⟩, ⟨2, 1⟩, ⟨1, 1⟩, ⟨0, 1⟩, ⟨0, 2⟩, ⟨1, 2⟩, ⟨2, 2⟩],
    dir := DIRS.LEFT, fruit := some ⟨0, 0⟩, score := 7,
    gameOver := false, won := false, crashPos := none,
    powerUp := none, revealTurns := 0, hazards := [] }

/-- A level-2 state whose head is about to step RIGHT onto a power-up with
`ttl = 5` at `(2,1)`. -/
def S5 : GameState :=
  { level := 2, cols := 4, rows := 4, lives := 3,
    snake := [⟨1, 1⟩], dir := DIRS.RIGHT, fruit := some ⟨0, 0⟩, score := 0,
    gameOver := false, won := false, crashPos := none,
    powerUp := some ⟨2, 1, 5⟩, revealTurns := 0, hazards := [] }

/-- A level-3 state whose head is about to step RIGHT into the hazard at
`(3,2)`. -/
def W1 : GameState :=
  { level := 3, cols := 5, rows := 5, lives := 3,
    snake := [⟨2, 2⟩], dir := DIRS.RIGHT, fruit := some ⟨0, 0⟩, score := 4,
    gameOver := false, won := false, crashPos := none,
    powerUp := none, revealTurns := 0, hazards := [⟨3, 2⟩] }

/-- A length-2 snake heading DOWN, as in the specification's reversal
scenario; a UP request is the exact opposite. -/
def W3a : GameState :=
  { level := 1, cols := 3, rows := 3, lives := 3,
    snake := [⟨1, 1⟩, ⟨1, 0⟩], dir := DIRS.DOWN, fruit := some ⟨0, 0⟩, score := 0,
    gameOver := false, won := false, crashPos := none,
    powerUp := none, revealTurns := 0, hazards := [] }

/-- A length-1 snake heading DOWN; a UP request is accepted. -/
def W3b : GameState :=
  { level := 1, cols := 3, rows := 3, lives := 3,
    snake := [⟨1, 1⟩], dir := DIRS.DOWN, fruit := some ⟨0, 0⟩, score := 0,
    gameOver := false, won := false, crashPos := none,
    powerUp := none, revealTurns := 0, hazards := [] }

/-- A 5×5 state with the head at the origin, about to wrap LEFT across the
edge. -/
def W8 : GameState :=
  { level := 3, cols := 5, rows := 5, lives := 3,
    snake := [⟨0, 0⟩], dir := DIRS.LEFT, fruit := some ⟨2, 2⟩, score := 0,
    gameOver := false, won := false, crashPos := none,
    powerUp := none, revealTurns := 0, hazards := [] }

/-- A ten-cell snake on a 4×4 board, head `(0,0)`, used to exercise a
power-up spawn. -/
def W9snake : List Pos :=
  [⟨0, 0⟩, ⟨1, 0⟩, ⟨2, 0⟩, ⟨3, 0⟩, ⟨3, 1⟩, ⟨2, 1⟩, ⟨1, 1⟩, ⟨0, 1⟩, ⟨0, 2⟩, ⟨1, 2⟩]

/-- A level-2 state in which every power-up spawn precondition holds and the
draw `(3,3)` is free. -/
def W9 : GameState :=
  { level := 2, cols := 4, rows := 4, lives := 3,
    snake := W9snake, dir := DIRS.RIGHT, fruit := some ⟨2, 2⟩, score := 0,
    gameOver := false, won := false, crashPos := none,
    powerUp := none, revealTurns := 0, hazards := [] }

/-- The claimed C10 scenario taken literally at level 1: the board is then
`sizeForLevel 1 = 3`, so cell `(2,2)` is a corner, not the center of a 5×5
board. -/
def S10bad : GameState :=
  { level := 1, cols := sizeForLevel 1, rows := sizeForLevel 1, lives := 3,
    snake := [⟨2, 2⟩], dir := DIRS.RIGHT, fruit := some ⟨0, 0⟩, score := 0,
    gameOver := false, won := false, crashPos := none,
    powerUp := none, revealTurns := 0, hazards := [] }

/-- The amended C10 scenario: level 3 gives the 5×5 board, with the length-1
snake at its center `(2,2)`, heading RIGHT, fruit at `f`, score `n`,
lives `l`. -/
def S10 (f : Pos) (n : Nat) (l : Int) : GameState :=
  { level := 3, cols := sizeForLevel 3, rows := sizeForLevel 3, lives := l,
    snake := [⟨2, 2⟩], dir := DIRS.RIGHT, fruit := some f, score := n,
    gameOver := false, won := false, crashPos := none,
    powerUp := none, revealTurns := 0, hazards := [] }

/-! ## General lemmas about the embedding -/

/-- For an in-range coordinate and a unit displacement, `wrapCoord` stays in
range and agrees with the mathematical remainder. -/
theorem wrapCoord_spec (v m d : Int) (h0 : 0 ≤ v) (h1 : v < m)
    (hd : d = -1 ∨ d = 0 ∨ d = 1) :
    0 ≤ wrapCoord (v + d) m ∧ wrapCoord (v + d) m < m ∧
      wrapCoord (v + d) m = (v + d) % m := by
  unfold wrapCoord
  split_ifs with h2 h3
  · have hvd : v + d = -1 := by omega
    rw [hvd]
    have h4 : (-1 : Int) % m = m - 1 := by
      calc (-1 : Int) % m = (-1 + m * 1) % m := (Int.add_mul_emod_self_left (-1) m 1).symm
        _ = (m - 1) % m := by congr 1; ring
        _ = m - 1 := Int.emod_eq_of_lt (by omega) (by omega)
    exact ⟨by omega, by omega, h4.symm⟩
  · have hvd : v + d = m := by omega
    rw [hvd]
    exact ⟨le_refl 0, by omega, Int.emod_self.symm⟩
  · exact ⟨by omega, by omega, (Int.emod_eq_of_lt (by omega) (by omega)).symm⟩

/-- Once past the terminal guard, the direction gate and both collision
checks, `doStep` is the move stage. -/
theorem doStep_eq_move (s : GameState) (d : Pos) (r : Rand)
    (hgo : s.gameOver = false) (hwon : s.won = false)
    (hgate : ¬(1 < s.snake.length ∧ isOpposite d s.dir = true))
    (hhaz : s.hazards.any (fun h => posEq h (newHeadOf s d)) = false)
    (hself : s.snake.any (fun p => posEq p (newHeadOf s d)) = false) :
    doStep s d r = doStepMove s d r := by
  unfold doStep doStepCore
  rw [hgo, hwon]
  simp [hgate, hhaz, hself]

/-- A cell returned by `placeFreeCell` is never in the excluded set. -/
theorem placeFreeCell_not_mem {draws excluded : List Pos} {cols rows : Nat} {p : Pos}
    (h : placeFreeCell draws excluded cols rows = some p) : p ∉ excluded := by
  unfold placeFreeCell at h
  split at h
  · exact absurd h (by simp)
  · split at h
    next q hq =>
      have hfind := List.find?_some hq
      simp at hfind
      cases h
      exact hfind
    next =>
      have hfind := List.find?_some h
      simp at hfind
      exact hfind

/-- When every board cell is excluded (and the random draws are in-board, as
`Math.floor(Math.random() * dim)` guarantees), `placeFreeCell` returns
`none`. -/
theorem placeFreeCell_none_of_full {draws excluded : List Pos} {cols rows : Nat}
    (hfull : ∀ p ∈ allCells cols rows, p ∈ excluded)
    (hdraws : ∀ p ∈ draws, p ∈ allCells cols rows) :
    placeFreeCell draws excluded cols rows = none := by
  unfold placeFreeCell
  split
  · rfl
  · have h1 : draws.find? (fun p => !decide (p ∈ excluded)) = none := by
      rw [List.find?_eq_none]
      intro p hp
      simp
      exact hfull p (hdraws p hp)
    simp only [h1]
    rw [List.find?_eq_none]
    intro p hp
    simp
    exact hfull p hp

/-- Deduplicated length is monotone under list inclusion. -/
theorem dedup_length_le_of_subset {l1 l2 : List Pos} (h : ∀ a ∈ l1, a ∈ l2) :
    l1.dedup.length ≤ l2.dedup.length := by
  have hsub : l1.toFinset ⊆ l2.toFinset := by
    intro a ha
    rw [List.mem_toFinset] at ha ⊢
    exact h a ha
  have hcard := Finset.card_le_card hsub
  rwa [List.card_toFinset, List.card_toFinset] at hcard

/-- A cell of the decayed power-up is a cell of the pre-step power-up. -/
theorem optPuCells_decay_subset (s : GameState) (a : Pos)
    (h : a ∈ optPuCells (powerUpDecayOf s)) : a ∈ optPuCells s.powerUp := by
  cases hs : s.powerUp with
  | none =>
      have hd : powerUpDecayOf s = none := by unfold powerUpDecayOf; rw [hs]
      rw [hd] at h
      simp [optPuCells] at h
  | some pu =>
      have hd : powerUpDecayOf s
          = (if pu.ttl - 1 ≤ 0 then none else some { pu with ttl := pu.ttl - 1 }) := by
        unfold powerUpDecayOf; rw [hs]
      rw [hd] at h
      by_cases ht : pu.ttl - 1 ≤ 0
      · rw [if_pos ht] at h
        simp [optPuCells] at h
      · rw [if_neg ht] at h
        simpa [optPuCells, puCell] using h

/-- The specification's win-check occupancy is included in the one the code
computes (the code charges the stale pre-step power-up cell, a superset of
the specified post-decay power-up cell). -/
theorem specOccupied_subset (s : GameState) (d : Pos) (r : Rand) :
    ∀ a ∈ specOccupied s d r, a ∈ winOccOf s d r := by
  intro a ha
  unfold specOccupied at ha
  unfold winOccOf
  simp only [List.mem_append] at ha ⊢
  rcases ha with ((h | h) | h) | h
  · exact Or.inl (Or.inl (Or.inl h))
  · exact Or.inl (Or.inl (Or.inr h))
  · exact Or.inl (Or.inr h)
  · refine Or.inr ?_
    by_cases hb : pickedUpOf s d = true
    · rw [hb, if_pos rfl] at h
      simp [optPuCells] at h
    · simp only [Bool.not_eq_true] at hb
      rw [hb, if_neg (show ¬(false = true) by simp)] at h
      exact optPuCells_decay_subset s a h

/-- `ceilSqrt` is positive on positive input. -/
theorem ceilSqrt_pos (n : Nat) (h : 1 ≤ n) : 1 ≤ ceilSqrt n := by
  unfold ceilSqrt
  cases hf : (List.range (n + 1)).find? (fun k => decide (n ≤ k * k)) with
  | none => simp [Option.getD]; omega
  | some k =>
      have hk := List.find?_some hf
      simp at hk
      simp [Option.getD]
      rcases k with _ | k
      · simp at hk; omega
      · omega

/-! ## The claims -/

/-- C8: for every in-range head coordinate and every unit direction, the new
head `wrap(head + heading)` lies within `[0, dimension)` in each axis and
equals `(head + heading) mod dimension` in each axis independently, so that
exiting one edge re-enters at the opposite edge with the same orthogonal
offset. -/
theorem C8_toroidal_wrap (s : GameState) (d : Pos)
    (hd : d = DIRS.UP ∨ d = DIRS.DOWN ∨ d = DIRS.LEFT ∨ d = DIRS.RIGHT)
    (hx : 0 ≤ (s.snake.headD ⟨0, 0⟩).x ∧ (s.snake.headD ⟨0, 0⟩).x < (s.cols : Int))
    (hy : 0 ≤ (s.snake.headD ⟨0, 0⟩).y ∧ (s.snake.headD ⟨0, 0⟩).y < (s.rows : Int)) :
    (0 ≤ (newHeadOf s d).x ∧ (newHeadOf s d).x < (s.cols : Int) ∧
      (newHeadOf s d).x = ((s.snake.headD ⟨0, 0⟩).x + d.x) % (s.cols : Int)) ∧
    (0 ≤ (newHeadOf s d).y ∧ (newHeadOf s d).y < (s.rows : Int) ∧
      (newHeadOf s d).y = ((s.snake.headD ⟨0, 0⟩).y + d.y) % (s.rows : Int)) := by
  have hdx : d.x = -1 ∨ d.x = 0 ∨ d.x = 1 := by
    rcases hd with h | h | h | h <;> subst h <;> simp [DIRS.UP, DIRS.DOWN, DIRS.LEFT, DIRS.RIGHT]
  have hdy : d.y = -1 ∨ d.y = 0 ∨ d.y = 1 := by
    rcases hd with h | h | h | h <;> subst h <;> simp [DIRS.UP, DIRS.DOWN, DIRS.LEFT, DIRS.RIGHT]
  constructor
  · exact wrapCoord_spec _ _ _ hx.1 hx.2 hdx
  · exact wrapCoord_spec _ _ _ hy.1 hy.2 hdy

/-- C8 witness: stepping LEFT from the origin column of the 5×5 board lands
in column 4, in range and equal to the remainder. -/
theorem C8_witness :
    0 ≤ (newHeadOf W8 DIRS.LEFT).x ∧ (newHeadOf W8 DIRS.LEFT).x < (W8.cols : Int) ∧
      (newHeadOf W8 DIRS.LEFT).x
        = ((W8.snake.headD ⟨0, 0⟩).x + DIRS.LEFT.x) % (W8.cols : Int) :=
  (C8_toroidal_wrap W8 DIRS.LEFT (Or.inr (Or.inr (Or.inl rfl)))
    (by decide) (by decide)).1

/-- C3: an opposite-direction request with snake length > 1 is a no-op with
no effects; with length 1 the gate does not fire and the step proceeds as
the full post-gate computation. -/
theorem C3_direction_gate (s : GameState) (d : Pos) (r : Rand)
    (hgo : s.gameOver = false) (hwon : s.won = false) :
    (1 < s.snake.length → isOpposite d s.dir = true → doStep s d r = (s, [])) ∧
    (s.snake.length = 1 → doStep s d r = doStepCore s d r) := by
  constructor
  · intro h1 h2
    unfold doStep
    rw [hgo, hwon]
    simp [h1, h2]
  · intro h1
    unfold doStep
    rw [hgo, hwon]
    simp [h1]

/-- C3 witness: on the length-2 snake heading DOWN the UP request is a no-op;
on the length-1 snake it proceeds to the core step. -/
theorem C3_witness :
    doStep W3a DIRS.UP R0 = (W3a, []) ∧
    doStep W3b DIRS.UP R0 = doStepCore W3b DIRS.UP R0 :=
  ⟨(C3_direction_gate W3a DIRS.UP R0 rfl rfl).1 (by decide) (by decide),
   (C3_direction_gate W3b DIRS.UP R0 rfl rfl).2 rfl⟩

/-- C1: in a non-terminal, non-gated step whose wrapped new head hits a
hazard cell or any pre-move snake cell (tail included), the step is a death:
a `died newHead` effect is the only effect, the snake (and fruit, score,
direction, power-up, hazards) are unchanged, `gameOver` is set and lives
drop by exactly one, floored at 0. -/
theorem C1_lethal_collision (s : GameState) (d : Pos) (r : Rand)
    (hgo : s.gameOver = false) (hwon : s.won = false)
    (hgate : ¬(1 < s.snake.length ∧ isOpposite d s.dir = true))
    (hcol : s.hazards.any (fun h => posEq h (newHeadOf s d)) = true ∨
            s.snake.any (fun p => posEq p (newHeadOf s d)) = true) :
    (doStep s d r).1.gameOver = true ∧
    (doStep s d r).1.snake = s.snake ∧
    (doStep s d r).1.lives = max 0 (s.lives - 1) ∧
    (doStep s d r).2 = [Effect.died (newHeadOf s d)] ∧
    (doStep s d r).1.score = s.score ∧
    (doStep s d r).1.fruit = s.fruit ∧
    (doStep s d r).1.dir = s.dir ∧
    (doStep s d r).1.powerUp = s.powerUp ∧
    (doStep s d r).1.hazards = s.hazards := by
  have hstep : doStep s d r = doStepCore s d r := by
    unfold doStep
    rw [hgo, hwon]
    simp [hgate]
  have hcore : doStepCore s d r = loseLifeAt s (newHeadOf s d) := by
    unfold doStepCore
    rcases hcol with h | h
    · simp [h]
    · by_cases h2 : s.hazards.any (fun hz => posEq hz (newHeadOf s d)) = true
      · simp [h2]
      · simp only [Bool.not_eq_true] at h2
        simp [h2, h]
  rw [hstep, hcore]
  unfold loseLifeAt
  simp

/-- C1 witness: stepping RIGHT into the hazard at `(3,2)` kills: snake
unchanged, lives 3 → 2, a single `died (3,2)` effect. -/
theorem C1_witness :
    (doStep W1 DIRS.RIGHT R0).1.gameOver = true ∧
    (doStep W1 DIRS.RIGHT R0).1.snake = [⟨2, 2⟩] ∧
    (doStep W1 DIRS.RIGHT R0).1.lives = 2 ∧
    (doStep W1 DIRS.RIGHT R0).2 = [Effect.died ⟨3, 2⟩] := by
  have h := C1_lethal_collision W1 DIRS.RIGHT R0 rfl rfl (by decide) (Or.inl (by decide))
  refine ⟨h.1, ?_, ?_, ?_⟩
  · rw [h.2.1]; rfl
  · rw [h.2.2.1]; decide
  · rw [h.2.2.2.1]; decide

/-- C2: in a non-lethal, non-gated step the snake length grows by exactly one
when the new head is the fruit cell, and is unchanged otherwise (the tail pop
balances the head push); no other part of the step touches the snake. -/
theorem C2_length (s : GameState) (d : Pos) (r : Rand)
    (hgo : s.gameOver = false) (hwon : s.won = false)
    (hgate : ¬(1 < s.snake.length ∧ isOpposite d s.dir = true))
    (hhaz : s.hazards.any (fun h => posEq h (newHeadOf s d)) = false)
    (hself : s.snake.any (fun p => posEq p (newHeadOf s d)) = false) :
    (doStep s d r).1.snake.length =
      (if ateFruitOf s d = true then s.snake.length + 1 else s.snake.length) := by
  rw [doStep_eq_move s d r hgo hwon hgate hhaz hself]
  show (newSnakeOf s d).length = _
  unfold newSnakeOf grownOf
  by_cases h : ateFruitOf s d = true
  · simp [h]
  · simp only [Bool.not_eq_true] at h
    simp [h, List.length_dropLast]

/-- C2 witness: the non-fruit RIGHT step from the center of the 5×5 board
keeps length 1. -/
theorem C2_witness :
    (doStep (S10 ⟨0, 0⟩ 0 3) DIRS.RIGHT R0).1.snake.length = 1 := by
  have h := C2_length (S10 ⟨0, 0⟩ 0 3) DIRS.RIGHT R0 rfl rfl
    (by decide) (by decide) (by decide)
  rw [h]; decide

/-- C4 counterexample: on the saturated 3×3 board the fruit-eating step
triggers the win and bumps the score, but the fruit is NOT made absent — the
code never writes the fruit state in the exhaustion branch (`setFruit` is
only called when a free cell was found), so it still holds the just-eaten
cell `(0,0)` in the resulting state. -/
theorem C4_counterexample :
    (doStep S4 DIRS.LEFT R0).1.won = true ∧
    (doStep S4 DIRS.LEFT R0).1.fruit = some ⟨0, 0⟩ := by decide

/-- C4 (amended): when a fruit is eaten and no free cell remains for a new
fruit (the grown snake, hazards and power-up cover the board), a Win is
unconditionally triggered and the score still increases by 1, handled as a
policy branch of the total step function rather than an error; the fruit
state variable, however, is left unchanged (it still holds the just-eaten
cell, which now coincides with the snake's head) — only the turn's local
`nextFruitPos` becomes absent, which excludes the fruit from the win
re-check occupancy. -/
theorem C4_fruit_exhaustion (s : GameState) (d : Pos) (r : Rand)
    (hgo : s.gameOver = false) (hwon : s.won = false)
    (hgate : ¬(1 < s.snake.length ∧ isOpposite d s.dir = true))
    (hhaz : s.hazards.any (fun h => posEq h (newHeadOf s d)) = false)
    (hself : s.snake.any (fun p => posEq p (newHeadOf s d)) = false)
    (hate : ateFruitOf s d = true)
    (hfull : ∀ p ∈ allCells s.cols s.rows, p ∈ fruitExcludedOf s d)
    (hdraws : ∀ p ∈ r.fruitDraws, p ∈ allCells s.cols s.rows) :
    (doStep s d r).1.won = true ∧
    (doStep s d r).1.score = s.score + 1 ∧
    (doStep s d r).1.fruit = s.fruit ∧
    nextFruitPosOf s d r = none ∧
    Effect.won ∈ (doStep s d r).2 := by
  have hplace : placeFreeCell r.fruitDraws (fruitExcludedOf s d) s.cols s.rows = none :=
    placeFreeCell_none_of_full hfull hdraws
  have hfs : fruitStepOf s d r = (none, s.fruit, true, [Effect.ateFruit, Effect.won]) := by
    unfold fruitStepOf
    rw [hate, if_pos rfl, hplace, hwon]
    rfl
  rw [doStep_eq_move s d r hgo hwon hgate hhaz hself]
  unfold doStepMove
  refine ⟨?_, ?_, ?_, ?_, ?_⟩
  · show (s.won || (fruitStepOf s d r).2.2.1 || _) = true
    rw [hfs]
    simp
  · show (if ateFruitOf s d = true then s.score + 1 else s.score) = s.score + 1
    rw [if_pos hate]
  · show (fruitStepOf s d r).2.1 = s.fruit
    rw [hfs]
  · unfold nextFruitPosOf
    rw [hfs]
  · show Effect.won ∈ (fruitStepOf s d r).2.2.2 ++ _ ++ _
    rw [hfs]
    simp

/-- C4 witness: the saturated 3×3 board instantiates the amended claim. -/
theorem C4_witness :
    (doStep S4 DIRS.LEFT R0).1.score = 8 ∧
    nextFruitPosOf S4 DIRS.LEFT R0 = none ∧
    Effect.won ∈ (doStep S4 DIRS.LEFT R0).2 := by
  have h := C4_fruit_exhaustion S4 DIRS.LEFT R0 rfl rfl (by decide) (by decide)
    (by decide) (by decide) (by decide) (by decide)
  exact ⟨h.2.1, h.2.2.2.1, h.2.2.2.2⟩

/-- C5 (code bug): stepping onto the `ttl = 5` power-up emits the pickup
effect and sets the reveal counter, but the power-up is NOT removed: the
countdown block (source line 436, "safe even if powerUp was cleared; we gate
via ref") reads the stale `powerUpRef` — which React only re-syncs after the
re-render — and queues `setPowerUp({ ..., ttl: 4 })` after the pickup's
`setPowerUp(null)`, so the batched final state still holds the power-up with
`ttl` merely decremented. -/
theorem C5_pickup_leaves_power_up :
    (doStep S5 DIRS.RIGHT R0).2 = [Effect.moved, Effect.pickedUp] ∧
    (doStep S5 DIRS.RIGHT R0).1.revealTurns = 1 ∧
    (doStep S5 DIRS.RIGHT R0).1.powerUp = some ⟨2, 1, 4⟩ := by decide

/-- C6 counterexample: on the saturated 3×3 board the fruit-exhaustion win
and the empties-threshold win both fire in the same turn, and the second IS
re-triggered — `triggerWin` re-runs in full because its `wonRef.current`
guard still reads the stale pre-step value within the same handler — so two
`won` effects (two win jingles) are emitted in one step. -/
theorem C6_counterexample :
    (doStep S4 DIRS.LEFT R0).2 = [Effect.ateFruit, Effect.won, Effect.won] ∧
    (doStep S4 DIRS.LEFT R0).2.count Effect.won = 2 := by decide

/-- C6 (amended): after the turn's mutations (and before the stochastic
spawns), if the empty-cell count — total cells minus the size of the union
of snake cells, hazards, the fruit cell if present and the power-up cell if
present — is strictly below `ceil(0.15 · cols · rows)`, the resulting state
has won; the code's own occupancy additionally charges the stale pre-step
power-up cell, a superset, so it wins at least as often as specified.  A win
already triggered this turn by fruit exhaustion leaves the same final state
(won remains true), but the trigger is NOT suppressed within the turn: a
second `won` effect is emitted. -/
theorem C6_win_recheck (s : GameState) (d : Pos) (r : Rand)
    (hgo : s.gameOver = false) (hwon : s.won = false)
    (hgate : ¬(1 < s.snake.length ∧ isOpposite d s.dir = true))
    (hhaz : s.hazards.any (fun h => posEq h (newHeadOf s d)) = false)
    (hself : s.snake.any (fun p => posEq p (newHeadOf s d)) = false)
    (hwin : ((s.cols * s.rows : Nat) : Int) - ((specOccupied s d r).dedup.length : Int)
              < (winThreshold (s.cols * s.rows) : Int)) :
    (doStep s d r).1.won = true := by
  have h1 : (specOccupied s d r).dedup.length ≤ (winOccOf s d r).dedup.length :=
    dedup_length_le_of_subset (specOccupied_subset s d r)
  have h2 : ((s.cols * s.rows : Nat) : Int) - ((winOccOf s d r).dedup.length : Int)
      < (winThreshold (s.cols * s.rows) : Int) := by omega
  rw [doStep_eq_move s d r hgo hwon hgate hhaz hself]
  unfold doStepMove
  show (s.won || _ || _) = true
  rw [hwon]
  push_cast at h2
  simp [h2]

/-- C6 witness: the saturated 3×3 board satisfies the threshold condition
(0 empties < 2) and the resulting state has won. -/
theorem C6_witness : (doStep S4 DIRS.LEFT R0).1.won = true :=
  C6_win_recheck S4 DIRS.LEFT R0 rfl rfl (by decide) (by decide) (by decide) (by decide)

/-- C7: on a pickup step no new power-up spawns, whatever the level, length,
reveal counter and random draws: the spawn helper returns `none` outright
when the block flag is set, and the final power-up value is exactly the
countdown of the pre-step one, independent of the spawn randomness. -/
theorem C7_no_respawn_on_pickup (s : GameState) (d : Pos) (r : Rand) (pu : PowerUp)
    (hgo : s.gameOver = false) (hwon : s.won = false)
    (hgate : ¬(1 < s.snake.length ∧ isOpposite d s.dir = true))
    (hhaz : s.hazards.any (fun h => posEq h (newHeadOf s d)) = false)
    (hself : s.snake.any (fun p => posEq p (newHeadOf s d)) = false)
    (hpu : s.powerUp = some pu)
    (_hpick : posEq (newHeadOf s d) (puCell pu) = true) :
    (doStep s d r).1.powerUp = powerUpDecayOf s ∧
    maybeSpawnPowerUp s (newHeadOf s d) (newSnakeOf s d) true r.puRoll r.puDraws = none := by
  constructor
  · rw [doStep_eq_move s d r hgo hwon hgate hhaz hself]
    unfold doStepMove
    have hspawn : maybeSpawnPowerUp s (newHeadOf s d) (newSnakeOf s d)
        (pickedUpOf s d) r.puRoll r.puDraws = none := by
      simp [maybeSpawnPowerUp, hpu]
    show (match maybeSpawnPowerUp s (newHeadOf s d) (newSnakeOf s d)
        (pickedUpOf s d) r.puRoll r.puDraws with
      | some npu => some npu
      | none => powerUpDecayOf s) = powerUpDecayOf s
    rw [hspawn]
  · simp [maybeSpawnPowerUp]

/-- C7 witness: the pickup step of the `ttl = 5` scenario ends with exactly
the decayed pre-step power-up, and the blocked spawn helper returns none. -/
theorem C7_witness :
    (doStep S5 DIRS.RIGHT R0).1.powerUp = powerUpDecayOf S5 ∧
    maybeSpawnPowerUp S5 (newHeadOf S5 DIRS.RIGHT) (newSnakeOf S5 DIRS.RIGHT)
      true R0.puRoll R0.puDraws = none :=
  C7_no_respawn_on_pickup S5 DIRS.RIGHT R0 ⟨2, 1, 5⟩ rfl rfl (by decide) (by decide)
    (by decide) rfl (by decide)

/-- C9: every power-up that actually spawns has initial
`ttl = max(1, ceil(dist)) + 3` for the Euclidean head-to-spawn distance: the
code computes `max(1, ceil(dist) + 3)`, and the two agree because the spawn
cell is never the head cell (the head is in the excluded snake), so
`ceil(dist) ≥ 1`. -/
theorem C9_ttl_init (s : GameState) (head : Pos) (snake1 : List Pos)
    (block roll : Bool) (draws : List Pos) (pu : PowerUp)
    (hmem : head ∈ snake1)
    (hspawn : maybeSpawnPowerUp s head snake1 block roll draws = some pu) :
    pu.ttl = max 1 (ceilDist head (puCell pu)) + 3 := by
  unfold maybeSpawnPowerUp at hspawn
  split_ifs at hspawn
  cases hplace : placeFreeCell draws (snake1 ++ optFruitCells s.fruit ++ s.hazards)
      s.cols s.rows with
  | none => rw [hplace] at hspawn; exact Option.noConfusion hspawn
  | some pos =>
      rw [hplace] at hspawn
      have hnm : pos ∉ snake1 ++ optFruitCells s.fruit ++ s.hazards :=
        placeFreeCell_not_mem hplace
      have hne : pos ≠ head := by
        intro he
        exact hnm (he ▸ List.mem_append_left _ (List.mem_append_left _ hmem))
      have hxy : pos.x ≠ head.x ∨ pos.y ≠ head.y := by
        by_contra hc
        push_neg at hc
        apply hne
        cases pos
        cases head
        simp at hc ⊢
        exact hc
      have hd2 : 1 ≤ (pos.x - head.x) * (pos.x - head.x)
          + (pos.y - head.y) * (pos.y - head.y) := by
        have ha : 0 ≤ (pos.x - head.x) * (pos.x - head.x) := mul_self_nonneg _
        have hb : 0 ≤ (pos.y - head.y) * (pos.y - head.y) := mul_self_nonneg _
        rcases hxy with h | h
        · have hp : 0 < (pos.x - head.x) * (pos.x - head.x) :=
            mul_self_pos.mpr (sub_ne_zero.mpr h)
          omega
        · have hp : 0 < (pos.y - head.y) * (pos.y - head.y) :=
            mul_self_pos.mpr (sub_ne_zero.mpr h)
          omega
      have hceil : 1 ≤ ceilSqrt (((pos.x - head.x) * (pos.x - head.x)
          + (pos.y - head.y) * (pos.y - head.y)).toNat) := by
        apply ceilSqrt_pos
        omega
      cases hspawn
      simp only [puCell, ceilDist]
      omega

/-- C9 witness: the spawn at `(3,3)` seen from head `(0,0)` has distance
`sqrt 18`, so `ttl = 8 = max(1, 5) + 3`. -/
theorem C9_witness :
    (8 : Int) = max 1 (ceilDist ⟨0, 0⟩ (puCell ⟨3, 3, 8⟩)) + 3 :=
  C9_ttl_init W9 ⟨0, 0⟩ W9snake false true [⟨3, 3⟩] ⟨3, 3, 8⟩ (by decide) (by decide)

/-- C10 counterexample: the claim's premise fails on the code — at level 1
the board is `sizeForLevel 1 = 3`, not 5; on that 3×3 board the cell `(2,2)`
is a corner and the RIGHT step wraps to `(0,2)`, not `(3,2)`. -/
theorem C10_counterexample :
    sizeForLevel 1 = 3 ∧
    (doStep S10bad DIRS.RIGHT R0).1.snake = [⟨0, 2⟩] := by decide

/-- C10 (amended): the 5×5 board belongs to level 3 (`sizeForLevel 3 = 5`);
there, with a length-1 snake at the center `(2,2)` heading RIGHT, the fruit
anywhere else than the target cell, stepping RIGHT yields snake `[(3,2)]`
with the score unchanged, for any randomness. -/
theorem C10_center_step (f : Pos) (n : Nat) (l : Int) (r : Rand)
    (hf : posEq ⟨3, 2⟩ f = false) :
    sizeForLevel 3 = 5 ∧
    (doStep (S10 f n l) DIRS.RIGHT r).1.snake = [⟨3, 2⟩] ∧
    (doStep (S10 f n l) DIRS.RIGHT r).1.score = n := by
  have hate : ateFruitOf (S10 f n l) DIRS.RIGHT = false := by
    show posEq (newHeadOf (S10 f n l) DIRS.RIGHT) f = false
    have hnh : newHeadOf (S10 f n l) DIRS.RIGHT = ⟨3, 2⟩ := rfl
    rw [hnh]
    exact hf
  have hstep : doStep (S10 f n l) DIRS.RIGHT r = doStepMove (S10 f n l) DIRS.RIGHT r :=
    doStep_eq_move _ _ _ rfl rfl (by simp [S10]) rfl rfl
  refine ⟨rfl, ?_, ?_⟩
  · rw [hstep]
    show newSnakeOf (S10 f n l) DIRS.RIGHT = [⟨3, 2⟩]
    unfold newSnakeOf
    rw [hate]
    rfl
  · rw [hstep]
    show (if ateFruitOf (S10 f n l) DIRS.RIGHT = true then n + 1 else n) = n
    rw [hate]
    rfl

/-- C10 witness: the amended scenario with the fruit at the origin. -/
theorem C10_witness :
    sizeForLevel 3 = 5 ∧
    (doStep (S10 ⟨0, 0⟩ 0 3) DIRS.RIGHT R0).1.snake = [⟨3, 2⟩] ∧
    (doStep (S10 ⟨0, 0⟩ 0 3) DIRS.RIGHT R0).1.score = 0 :=
  C10_center_step ⟨0, 0⟩ 0 3 R0 (by decide)

end Invisisnake
